import Mathlib

/-!
Verification of the s3x-explorer listing/caching/bulk-operation core.

This file shallowly embeds the TypeScript sources (src/src/types.ts,
src/src/s3/client.ts, src/src/s3/ops.ts, src/src/extension.ts, and the
listing/explorer modules) as executable Lean definitions and proves the
spec claims about them.

Conventions of the embedding:
- JavaScript objects thrown as errors are modelled by the `JsError`
  structure; a field that may be `undefined` in JS becomes an `Option`.
- Asynchronous functions become pure functions from their remote-call
  outcomes (oracles) to the trace of remote calls they issue plus the
  error they surface, mirroring JS exception propagation.
- The word "pfx" is used in identifiers for what the source spells out
  as a key path group ending in a slash (the source's S3Prefix).
- Progress reporting and VS Code UI calls are not part of the traces.
-/

namespace S3X

set_option maxRecDepth 1000000

/-- Model of the S3Object interface of src/src/types.ts: the fields used by
the verified operations (key, size, etag, storageClass); the Date-valued
lastModified field and contentType are not consumed by any verified code
path and are omitted. -/
structure S3Object where
  key : String
  size : Option Nat
  etag : Option String
  storageClass : Option String
deriving DecidableEq, Repr

/-- Model of the S3Prefix interface of src/src/types.ts (a single string
field holding the slash-terminated path group). -/
structure S3Pfx where
  pfx : String
deriving DecidableEq, Repr

/-- Model of the S3Bucket interface of src/src/types.ts (creationDate is a
Date in the source; modelled as an optional timestamp number). -/
structure S3Bucket where
  name : String
  creationDate : Option Nat
deriving DecidableEq, Repr

/-- Model of ListObjectsResult of src/src/types.ts. -/
structure ListObjectsResult where
  objects : List S3Object
  pfxes : List S3Pfx
  isTruncated : Bool
  continuationToken : Option String
deriving DecidableEq, Repr

/-- Model of CacheEntry of src/src/types.ts. -/
structure CacheEntry where
  objects : List S3Object
  pfxes : List S3Pfx
  lastFetched : Nat
  continuationToken : Option String
  isTruncated : Bool
deriving DecidableEq, Repr

/-- Model of a thrown JS error value as the retry/classification code sees
it: `code` and `message` are the usual fields, `metadataHttpStatusCode`
models the optional chain error.$metadata?.httpStatusCode of raw AWS SDK
errors, `statusCode` and `retryable` model the fields the S3Error class of
src/src/types.ts stores on instances it constructs. An S3Error instance
has no $metadata property, so for it `metadataHttpStatusCode` is `none`. -/
structure JsError where
  name : String
  code : Option String
  message : String
  metadataHttpStatusCode : Option Nat
  statusCode : Option Nat
  retryable : Bool
deriving DecidableEq, Repr

/-- Model of the S3Error constructor of src/src/types.ts lines 99-108: it
stores message, code, statusCode and retryable on the instance; the
resulting object has no $metadata property. -/
def mkS3Error (message : String) (code : Option String) (statusCode : Option Nat)
    (retryable : Bool) : JsError :=
  { name := "S3Error", code := code, message := message,
    metadataHttpStatusCode := none, statusCode := statusCode, retryable := retryable }

/-- Model of S3Error.isRetryable of src/src/types.ts lines 119-126: true
when error.code is "TooManyRequests", or error.$metadata?.httpStatusCode
is 429, or that status is a 5xx. In JS, a comparison against an undefined
status is false, matching the `none` branches here. Note that it reads
only the $metadata chain, never the statusCode field of S3Error
instances. -/
def S3ErrorIsRetryable (e : JsError) : Bool :=
  e.code == some "TooManyRequests" ||
  e.metadataHttpStatusCode == some 429 ||
  (match e.metadataHttpStatusCode with
   | some s => decide (500 ≤ s) && decide (s < 600)
   | none => false)

/-- Outcome of a withRetry-wrapped call: the final result, the number of
attempts issued, and the backoff delays slept between attempts, in
order. -/
structure RetryOutcome (T : Type) where
  result : Except JsError T
  attempts : Nat
  delays : List Nat
deriving Repr

/-- Loop of withRetry of src/src/s3/client.ts lines 171-194. `op` gives
each attempt's outcome. The loop body matches the source: on success
return; on failure, if attempt equals maxRetries or the error is not
classified retryable by S3Error.isRetryable, break (and the last error is
thrown); otherwise sleep baseDelay * 2 ^ attempt and retry. `fuel` equals
maxRetries - attempt throughout and only bounds the recursion; its zero
branch is unreachable from `withRetry` below. -/
def withRetryGo {T : Type} (op : Nat → Except JsError T) (maxRetries baseDelay : Nat) :
    Nat → Nat → List Nat → RetryOutcome T
  | attempt, fuel, delays =>
    match op attempt with
    | Except.ok v => { result := Except.ok v, attempts := attempt + 1, delays := delays }
    | Except.error e =>
      if attempt == maxRetries || !S3ErrorIsRetryable e then
        { result := Except.error e, attempts := attempt + 1, delays := delays }
      else
        match fuel with
        | 0 => { result := Except.error e, attempts := attempt + 1, delays := delays }
        | fuel' + 1 =>
          withRetryGo op maxRetries baseDelay (attempt + 1) fuel'
            (delays ++ [baseDelay * 2 ^ attempt])

/-- Model of withRetry of src/src/s3/client.ts lines 171-194 (defaults in
the source: maxRetries = 3, baseDelay = 1000). -/
def withRetry {T : Type} (op : Nat → Except JsError T) (maxRetries baseDelay : Nat) :
    RetryOutcome T :=
  withRetryGo op maxRetries baseDelay 0 maxRetries []

/-- Model of the JS expression error.$metadata?.httpStatusCode ||
error.statusCode used by the listBuckets catch block: the first operand
is used unless it is falsy (undefined or 0). -/
def jsOrStatus (a b : Option Nat) : Option Nat :=
  match a with
  | some 0 => b
  | some s => some s
  | none => b

/-- Model of the catch block of listBuckets (listing module, part_003
lines 1058-1077): every raw error is wrapped into a new S3Error whose
status comes from the $metadata chain or statusCode, with retryable
computed by S3Error.isRetryable on the raw error; a 404 status gets a
dedicated non-retryable error. Messages are abbreviated (the source
interpolates details into them). The wrapped error has no $metadata. -/
def wrapListBucketsError (e : JsError) : JsError :=
  let statusCode := jsOrStatus e.metadataHttpStatusCode e.statusCode
  if statusCode == some 404 then
    mkS3Error "Endpoint not found (HTTP 404)" e.code statusCode false
  else
    mkS3Error "Failed to list buckets" e.code statusCode (S3ErrorIsRetryable e)

/-- Model of listBuckets (listing module, part_003 lines 1046-1080): the
whole operation is wrapped in withRetry; inside, a raw client error is
caught and rethrown wrapped by the catch block, so what withRetry
classifies is always the wrapped S3Error. `raw` is the oracle giving each
attempt's raw outcome from the client. -/
def listBucketsRun (raw : Nat → Except JsError (List S3Bucket))
    (maxRetries baseDelay : Nat) : RetryOutcome (List S3Bucket) :=
  withRetry
    (fun attempt =>
      match raw attempt with
      | Except.ok bs => Except.ok bs
      | Except.error e => Except.error (wrapListBucketsError e))
    maxRetries baseDelay

/-- A raw AWS-SDK-style error for an HTTP 503 response: the status lives
in the $metadata chain, as on errors thrown by client.send. -/
def raw503 : JsError :=
  { name := "ServiceUnavailable", code := some "ServiceUnavailable",
    message := "Service Unavailable", metadataHttpStatusCode := some 503,
    statusCode := none, retryable := false }

/-- A raw AWS-SDK-style error for an HTTP 403 response. -/
def raw403 : JsError :=
  { name := "Forbidden", code := some "Forbidden",
    message := "Forbidden", metadataHttpStatusCode := some 403,
    statusCode := none, retryable := false }

/-- An attempt oracle that always fails with the raw 503 error. -/
def alwaysRaw503 : Nat → Except JsError Unit := fun _ => Except.error raw503

/-- An attempt oracle that always fails with the raw 403 error. -/
def alwaysRaw403 : Nat → Except JsError Unit := fun _ => Except.error raw403

/-- An attempt oracle for listBuckets whose every attempt gets a raw 503
from the client. -/
def listBucketsAlways503 : Nat → Except JsError (List S3Bucket) :=
  fun _ => Except.error raw503

/-- Claim C2: a 503 listBuckets failure is classified retryable by
S3Error.isRetryable and even flagged retryable:=true when wrapped, yet
listBuckets raises it after a single attempt with no backoff delay,
because withRetry re-classifies the wrapped S3Error, which carries its
status in statusCode, not in the $metadata chain that
S3Error.isRetryable reads. Had the raw 503 reached withRetry unwrapped,
it would have been retried with delays 1000, 2000, 4000 over 4 attempts;
a 403 is raised immediately in either form. This contradicts the claim
(and the retry design the code itself encodes in the unused retryable
flag), so the claim is settled as a code bug. -/
theorem c2_wrapped_503_not_retried :
    S3ErrorIsRetryable raw503 = true
    ∧ (wrapListBucketsError raw503).retryable = true
    ∧ S3ErrorIsRetryable (wrapListBucketsError raw503) = false
    ∧ (listBucketsRun listBucketsAlways503 3 1000).attempts = 1
    ∧ (listBucketsRun listBucketsAlways503 3 1000).delays = []
    ∧ (listBucketsRun listBucketsAlways503 3 1000).result
        = Except.error (wrapListBucketsError raw503)
    ∧ (withRetry alwaysRaw503 3 1000).delays = [1000, 2000, 4000]
    ∧ (withRetry alwaysRaw503 3 1000).attempts = 4
    ∧ (withRetry alwaysRaw403 3 1000).attempts = 1
    ∧ (withRetry alwaysRaw403 3 1000).delays = [] := by
  refine ⟨rfl, rfl, rfl, rfl, rfl, rfl, rfl, rfl, rfl, rfl⟩

/-- A remote delete/copy/put call issued against the store, as recorded in
operation traces. -/
inductive S3Call where
  | batchDelete (bucket : String) (keys : List String)
  | deleteOne (bucket : String) (key : String)
  | copyObj (srcBucket srcKey dstBucket dstKey : String)
  | putFolder (bucket : String) (folderKey : String)
deriving DecidableEq, Repr

/-- A per-key failure entry of a batched-delete response (response.Errors
in deleteObjects of src/src/s3/ops.ts). -/
structure KeyError where
  key : String
  message : String
deriving DecidableEq, Repr

/-- The aggregation of per-key failures performed by deleteObjects of
src/src/s3/ops.ts lines 156-160: the entries are joined into one string
of key-message pairs. -/
def aggregateDeleteErrors (errs : List KeyError) : String :=
  String.intercalate ", " (errs.map (fun e => e.key ++ ": " ++ e.message))

/-- The single error deleteObjects surfaces when a batched-delete response
reports per-key failures: the inner aggregated S3Error is caught by the
surrounding catch block and rewrapped with the outer message; the result
has no code or status and is never classified retryable, so withRetry
raises it after one attempt. -/
def aggregatedDeleteError (errs : List KeyError) : JsError :=
  mkS3Error
    ("Failed to delete objects: Some objects failed to delete: "
      ++ aggregateDeleteErrors errs)
    none none false

/-- Model of deleteObjects of src/src/s3/ops.ts lines 134-171: with an
empty key list it returns at once, before creating a client or issuing
any remote call; otherwise it issues one batched-delete call and, if the
response reports per-key failures (`responseErrors`), throws the single
aggregated error. Returns the issued calls and the surfaced error. -/
def deleteObjectsRun (bucket : String) (keys : List String)
    (responseErrors : List KeyError) : List S3Call × Option JsError :=
  if keys.length = 0 then
    ([], none)
  else
    ([S3Call.batchDelete bucket keys],
      if responseErrors.length = 0 then none
      else some (aggregatedDeleteError responseErrors))

/-- The keys of batch i of the folder-delete loop of handleDelete
(src/src/extension.ts lines 845-856): batch = objects.slice(start, end)
with start = i * 1000 and end = min(start + 1000, length), then mapped to
keys; List.take clamps exactly like the min does. -/
def folderBatchKeys (objects : List S3Object) (i : Nat) : List String :=
  ((objects.drop (i * 1000)).take 1000).map S3Object.key

/-- The batch loop of handleDelete (src/src/extension.ts lines 845-857):
for i from 0 while fuel (initially totalBatches) remains, issue the
batched delete for batch i; a thrown aggregated error propagates out of
the loop immediately, abandoning the remaining batches. `batchErrors i`
is the per-key failure list of batch i's response. -/
def runBatchesGo (bucket : String) (objects : List S3Object)
    (batchErrors : Nat → List KeyError) :
    Nat → Nat → List S3Call × Option JsError
  | _, 0 => ([], none)
  | i, fuel + 1 =>
    let r := deleteObjectsRun bucket (folderBatchKeys objects i) (batchErrors i)
    match r.2 with
    | some e => (r.1, some e)
    | none =>
      let rest := runBatchesGo bucket objects batchErrors (i + 1) fuel
      (r.1 ++ rest.1, rest.2)

/-- Result of one folder delete: the remote calls issued, and the error
surfaced to the outer catch of handleDelete (none means the operation
reported success). -/
structure FolderDeleteRun where
  calls : List S3Call
  err : Option JsError
deriving Repr

/-- Model of the folder branch of handleDelete, src/src/extension.ts lines
826-871. `objects` is the recursive enumeration of the folder. If it is
empty, the single marker delete is issued with no surrounding try/catch,
so its outcome (`markerErr`) is the operation's outcome. Otherwise the
keys are deleted in batches of 1000 (totalBatches = ceil(length / 1000),
written (length + 999) / 1000); a batch failure propagates and aborts the
operation before the marker delete; on success the marker delete is
issued inside a try/catch that swallows any error, so `markerErr` is
ignored there. -/
def handleDeleteFolderRun (bucket pfx : String) (objects : List S3Object)
    (batchErrors : Nat → List KeyError) (markerErr : Option JsError) :
    FolderDeleteRun :=
  if objects.length = 0 then
    { calls := [S3Call.deleteOne bucket pfx], err := markerErr }
  else
    let totalBatches := (objects.length + 999) / 1000
    let r := runBatchesGo bucket objects batchErrors 0 totalBatches
    match r.2 with
    | some e => { calls := r.1, err := some e }
    | none => { calls := r.1 ++ [S3Call.deleteOne bucket pfx], err := none }

/-- Claim C10: deleteObjects called with an empty key list returns
successfully, issuing no remote call at all (the early return precedes
client creation), for every possible batched-delete response. -/
theorem c10_deleteObjects_empty_noop (bucket : String)
    (responseErrors : List KeyError) :
    deleteObjectsRun bucket [] responseErrors = ([], none) := by
  rfl

/-- Helper: when no batch response reports per-key failures, the batch
loop issues every batch, in index order, and surfaces no error. -/
theorem runBatchesGo_ok (bucket : String) (objects : List S3Object)
    (batchErrors : Nat → List KeyError) (hok : ∀ j, batchErrors j = [])
    (fuel : Nat) :
    ∀ i, (∀ t, t < fuel → (i + t) * 1000 < objects.length) →
      runBatchesGo bucket objects batchErrors i fuel
        = ((List.range fuel).map
            (fun t => S3Call.batchDelete bucket (folderBatchKeys objects (i + t))),
           none) := by
  induction fuel with
  | zero => intro i _; simp [runBatchesGo]
  | succ fuel ih =>
    intro i h
    have hlt : i * 1000 < objects.length := by
      have := h 0 (Nat.succ_pos _)
      simpa using this
    have hpos : (folderBatchKeys objects i).length ≠ 0 := by
      simp only [folderBatchKeys, List.length_map, List.length_take, List.length_drop]
      omega
    have hrec := ih (i + 1) (fun t ht => by
      have := h (t + 1) (by omega)
      have heq : i + (t + 1) = i + 1 + t := by omega
      rw [heq] at this
      exact this)
    have hstep : runBatchesGo bucket objects batchErrors i (fuel + 1)
        = (S3Call.batchDelete bucket (folderBatchKeys objects i) ::
            (List.range fuel).map
              (fun t => S3Call.batchDelete bucket (folderBatchKeys objects (i + 1 + t))),
           none) := by
      simp [runBatchesGo, deleteObjectsRun, hok i, hpos, hrec]
    rw [hstep, List.range_succ_eq_map]
    have hmaps : (List.range fuel).map
          (fun t => S3Call.batchDelete bucket (folderBatchKeys objects (i + 1 + t)))
        = (List.range fuel).map
            ((fun t => S3Call.batchDelete bucket (folderBatchKeys objects (i + t)))
              ∘ Nat.succ) := by
      refine List.map_congr_left ?_
      intro t _
      simp only [Function.comp]
      have heq : i + 1 + t = i + Nat.succ t := by omega
      rw [heq]
    rw [hmaps]
    simp [List.map_map]

/-- Helper: joining the first m chunks of width 1000 of a list yields its
first m * 1000 elements. -/
theorem flatten_range_take {α : Type} (l : List α) : ∀ m : Nat,
    ((List.range m).map (fun i => (l.drop (i * 1000)).take 1000)).flatten
      = l.take (m * 1000) := by
  intro m
  induction m with
  | zero => simp
  | succ m ih =>
    rw [List.range_succ, List.map_append, List.flatten_append, ih]
    have hm : (m + 1) * 1000 = m * 1000 + 1000 := by ring
    rw [hm, List.take_add]
    simp

/-- Claim C1: a folder delete over a non-empty recursive enumeration
partitions the enumerated keys greedily, in enumeration order, into
ceil(n / 1000) = (n + 999) / 1000 groups: batch i is exactly the keys at
positions i * 1000 up to i * 1000 + 1000, so its size is exactly
min(1000, n - i * 1000) — every batch is full except possibly the last.
The executor issues exactly one batched-delete call per group in order,
and issues the single-key delete of the folder-marker key after the last
batch. At n = 2500 the batch sizes are therefore 1000, 1000 and 500 (see
the witness). -/
theorem c1_folder_delete_batches (bucket pfx : String) (objs : List S3Object)
    (batchErrors : Nat → List KeyError) (markerErr : Option JsError)
    (h : 0 < objs.length) (hok : ∀ i, batchErrors i = []) :
    ∃ batches : List (List String),
      (handleDeleteFolderRun bucket pfx objs batchErrors markerErr).calls
          = batches.map (fun ks => S3Call.batchDelete bucket ks)
            ++ [S3Call.deleteOne bucket pfx]
      ∧ batches = (List.range ((objs.length + 999) / 1000)).map
            (fun i => ((objs.map S3Object.key).drop (i * 1000)).take 1000)
      ∧ batches.map List.length
          = (List.range ((objs.length + 999) / 1000)).map
              (fun i => min 1000 (objs.length - i * 1000))
      ∧ batches.length = (objs.length + 999) / 1000
      ∧ (∀ b ∈ batches, 0 < b.length ∧ b.length ≤ 1000)
      ∧ batches.flatten = objs.map S3Object.key := by
  refine ⟨(List.range ((objs.length + 999) / 1000)).map (folderBatchKeys objs),
    ?_, ?_, ?_, ?_, ?_, ?_⟩
  · have hrun := runBatchesGo_ok bucket objs batchErrors hok
      ((objs.length + 999) / 1000) 0 (fun t ht => by
        simp only [Nat.zero_add]
        omega)
    have hne : objs.length ≠ 0 := by omega
    simp only [handleDeleteFolderRun, hne, if_false, hrun, Nat.zero_add,
      List.map_map]
    rfl
  · refine List.map_congr_left ?_
    intro i _
    simp [folderBatchKeys, List.map_take, List.map_drop]
  · rw [List.map_map]
    refine List.map_congr_left ?_
    intro i _
    simp [folderBatchKeys, Function.comp, List.length_map, List.length_take,
      List.length_drop]
  · simp
  · intro b hb
    rcases List.mem_map.1 hb with ⟨i, hi, rfl⟩
    have hi' : i < (objs.length + 999) / 1000 := List.mem_range.1 hi
    simp only [folderBatchKeys, List.length_map, List.length_take, List.length_drop]
    omega
  · have hconv : (List.range ((objs.length + 999) / 1000)).map (folderBatchKeys objs)
        = (List.range ((objs.length + 999) / 1000)).map
            (fun i => ((objs.map S3Object.key).drop (i * 1000)).take 1000) := by
      refine List.map_congr_left ?_
      intro i _
      simp [folderBatchKeys, List.map_take, List.map_drop]
    rw [hconv, flatten_range_take]
    refine List.take_of_length_le ?_
    simp only [List.length_map]
    omega

/-- A sample stored object used by concrete instances. -/
def sampleObj : S3Object := ⟨"k", none, none, none⟩

/-- A batch-failure oracle reporting no per-key failure in any batch. -/
def noBatchErrors : Nat → List KeyError := fun _ => []

/-- Witness for claim C1 at the spec's concrete instance: 2500 enumerated
objects yield ceil(2500 / 1000) = 3 batches followed by the marker
delete, and the greedy size schedule min(1000, 2500 - i * 1000)
evaluates to exactly 1000, 1000, 500. -/
theorem c1_folder_delete_batches_witness :
    0 < (List.replicate 2500 sampleObj).length
    ∧ (∃ batches : List (List String),
        (handleDeleteFolderRun "b" "folder/" (List.replicate 2500 sampleObj)
            noBatchErrors none).calls
            = batches.map (fun ks => S3Call.batchDelete "b" ks)
              ++ [S3Call.deleteOne "b" "folder/"]
        ∧ batches = (List.range (((List.replicate 2500 sampleObj).length + 999) / 1000)).map
              (fun i => (((List.replicate 2500 sampleObj).map S3Object.key).drop
                (i * 1000)).take 1000)
        ∧ batches.map List.length
            = (List.range (((List.replicate 2500 sampleObj).length + 999) / 1000)).map
                (fun i => min 1000 ((List.replicate 2500 sampleObj).length - i * 1000))
        ∧ batches.length = ((List.replicate 2500 sampleObj).length + 999) / 1000
        ∧ (∀ b ∈ batches, 0 < b.length ∧ b.length ≤ 1000)
        ∧ batches.flatten = (List.replicate 2500 sampleObj).map S3Object.key)
    ∧ (List.range (((List.replicate 2500 sampleObj).length + 999) / 1000)).map
          (fun i => min 1000 ((List.replicate 2500 sampleObj).length - i * 1000))
        = [1000, 1000, 500] :=
  ⟨by simp only [List.length_replicate]; decide,
    c1_folder_delete_batches "b" "folder/" (List.replicate 2500 sampleObj)
      noBatchErrors none (by simp only [List.length_replicate]; decide) (fun _ => rfl),
    by simp only [List.length_replicate]; decide⟩

/-- Helper: when batch j is the first whose response reports per-key
failures, the loop issues batches 0..j only and surfaces the single
aggregated error of batch j; later batches are abandoned. -/
theorem runBatchesGo_fail (bucket : String) (objects : List S3Object)
    (batchErrors : Nat → List KeyError) :
    ∀ j fuel i, j < fuel →
      (∀ t, t < j → batchErrors (i + t) = []) →
      batchErrors (i + j) ≠ [] →
      (∀ t, t ≤ j → (i + t) * 1000 < objects.length) →
      runBatchesGo bucket objects batchErrors i fuel
        = ((List.range (j + 1)).map
            (fun t => S3Call.batchDelete bucket (folderBatchKeys objects (i + t))),
           some (aggregatedDeleteError (batchErrors (i + j)))) := by
  intro j
  induction j with
  | zero =>
    intro fuel i hj hmin hfail hlen
    cases fuel with
    | zero => omega
    | succ fuel =>
      have hlt : i * 1000 < objects.length := by
        have := hlen 0 (Nat.le_refl 0)
        simpa using this
      have hpos : (folderBatchKeys objects i).length ≠ 0 := by
        simp only [folderBatchKeys, List.length_map, List.length_take, List.length_drop]
        omega
      have hfail0 : batchErrors i ≠ [] := by simpa using hfail
      have hfail' : (batchErrors i).length ≠ 0 := by
        intro hc
        exact hfail0 (List.length_eq_zero.1 hc)
      simp [runBatchesGo, deleteObjectsRun, hpos, hfail', List.range_succ]
  | succ j ih =>
    intro fuel i hj hmin hfail hlen
    cases fuel with
    | zero => omega
    | succ fuel =>
      have hlt : i * 1000 < objects.length := by
        have := hlen 0 (Nat.zero_le _)
        simpa using this
      have hpos : (folderBatchKeys objects i).length ≠ 0 := by
        simp only [folderBatchKeys, List.length_map, List.length_take, List.length_drop]
        omega
      have hzero : batchErrors i = [] := by
        have := hmin 0 (Nat.succ_pos _)
        simpa using this
      have hrec := ih fuel (i + 1) (by omega)
        (fun t ht => by
          have := hmin (t + 1) (by omega)
          have heq : i + (t + 1) = i + 1 + t := by omega
          rw [heq] at this
          exact this)
        (by
          have heq : i + (j + 1) = i + 1 + j := by omega
          rw [heq] at hfail
          exact hfail)
        (fun t ht => by
          have := hlen (t + 1) (by omega)
          have heq : i + (t + 1) = i + 1 + t := by omega
          rw [heq] at this
          exact this)
      have hstep : runBatchesGo bucket objects batchErrors i (fuel + 1)
          = (S3Call.batchDelete bucket (folderBatchKeys objects i) ::
              (List.range (j + 1)).map
                (fun t => S3Call.batchDelete bucket (folderBatchKeys objects (i + 1 + t))),
             some (aggregatedDeleteError (batchErrors (i + 1 + j)))) := by
        simp [runBatchesGo, deleteObjectsRun, hzero, hpos, hrec]
      have herr : i + 1 + j = i + (j + 1) := by omega
      have hgoal : (List.range (j + 1 + 1)).map
            (fun t => S3Call.batchDelete bucket (folderBatchKeys objects (i + t)))
          = S3Call.batchDelete bucket (folderBatchKeys objects i) ::
              (List.range (j + 1)).map
                (fun t => S3Call.batchDelete bucket (folderBatchKeys objects (i + 1 + t))) := by
        rw [List.range_succ_eq_map, List.map_cons, List.map_map]
        refine congrArg₂ List.cons (by simp) ?_
        refine List.map_congr_left ?_
        intro t _
        simp only [Function.comp]
        have heq : i + Nat.succ t = i + 1 + t := by omega
        rw [heq]
      rw [hstep, herr, hgoal]

/-- Claim C3 as amended: when batch j is the first of the folder delete
whose batched-delete response reports per-key failures, those failures
are aggregated into one error (a single message joining every failed
key), but that error aborts the operation: exactly batches 0..j are
issued, the batches after j and the marker delete are not, and the
aggregated error is reported. -/
theorem c3_batch_failure_aborts (bucket pfx : String) (objs : List S3Object)
    (batchErrors : Nat → List KeyError) (markerErr : Option JsError) (j : Nat)
    (hn : 0 < objs.length)
    (hj : j < (objs.length + 999) / 1000)
    (hmin : ∀ i, i < j → batchErrors i = [])
    (hfail : batchErrors j ≠ []) :
    (handleDeleteFolderRun bucket pfx objs batchErrors markerErr).calls
        = (List.range (j + 1)).map
            (fun i => S3Call.batchDelete bucket (folderBatchKeys objs i))
    ∧ (handleDeleteFolderRun bucket pfx objs batchErrors markerErr).err
        = some (aggregatedDeleteError (batchErrors j)) := by
  have hrun := runBatchesGo_fail bucket objs batchErrors j ((objs.length + 999) / 1000) 0
    hj
    (fun t ht => by simpa using hmin t ht)
    (by simpa using hfail)
    (fun t ht => by
      simp only [Nat.zero_add]
      omega)
  simp only [Nat.zero_add] at hrun
  have hne : objs.length ≠ 0 := by omega
  simp [handleDeleteFolderRun, hne, hrun]

/-- A batch-failure oracle where only the first batch reports a per-key
failure. -/
def c3BatchErrors : Nat → List KeyError :=
  fun i => if i = 0 then [⟨"k", "AccessDenied"⟩] else []

/-- Witness for the amended claim C3: with 1001 enumerated objects
(2 batches) and a per-key failure in batch 0, only batch 0 is issued and
its aggregated error is reported. -/
theorem c3_batch_failure_aborts_witness :
    0 < (List.replicate 1001 sampleObj).length
    ∧ 0 < ((List.replicate 1001 sampleObj).length + 999) / 1000
    ∧ c3BatchErrors 0 ≠ []
    ∧ (handleDeleteFolderRun "b" "f/" (List.replicate 1001 sampleObj)
          c3BatchErrors none).calls
        = (List.range (0 + 1)).map
            (fun i => S3Call.batchDelete "b"
              (folderBatchKeys (List.replicate 1001 sampleObj) i))
    ∧ (handleDeleteFolderRun "b" "f/" (List.replicate 1001 sampleObj)
          c3BatchErrors none).err
        = some (aggregatedDeleteError (c3BatchErrors 0)) :=
  ⟨by simp only [List.length_replicate]; decide,
    by simp only [List.length_replicate]; decide,
    by decide,
    (c3_batch_failure_aborts "b" "f/" (List.replicate 1001 sampleObj)
      c3BatchErrors none 0 (by simp only [List.length_replicate]; decide)
      (by simp only [List.length_replicate]; decide)
      (fun i hi => absurd hi (by omega)) (by decide)).1,
    (c3_batch_failure_aborts "b" "f/" (List.replicate 1001 sampleObj)
      c3BatchErrors none 0 (by simp only [List.length_replicate]; decide)
      (by simp only [List.length_replicate]; decide)
      (fun i hi => absurd hi (by omega)) (by decide)).2⟩

/-- Counterexample to claim C3 as stated: a folder delete spanning 2
batches (1001 objects) with a per-key failure reported in batch 0 issues
exactly one remote call in total — the second batch is never issued and
the operation aborts with the aggregated error — contradicting the claim
that every batch after the failing one is still issued. -/
theorem c3_counterexample :
    ((List.replicate 1001 sampleObj).length + 999) / 1000 = 2
    ∧ (handleDeleteFolderRun "b" "f/" (List.replicate 1001 sampleObj)
          c3BatchErrors none).calls.length = 1
    ∧ (handleDeleteFolderRun "b" "f/" (List.replicate 1001 sampleObj)
          c3BatchErrors none).err
        = some (aggregatedDeleteError [⟨"k", "AccessDenied"⟩]) := by
  refine ⟨by decide, by decide, by decide⟩

/-- Claim C5 as amended: a folder delete over an empty enumeration issues
exactly the single marker delete with no surrounding error handling: the
operation's outcome is that delete's outcome, whatever it is. A
"not found" error there is therefore reported as a failure rather than
tolerated (the tolerance exists only in the non-empty branch's cleanup);
the operation succeeds exactly when the delete call succeeds. -/
theorem c5_empty_folder_marker_delete (bucket pfx : String)
    (batchErrors : Nat → List KeyError) (markerErr : Option JsError) :
    (handleDeleteFolderRun bucket pfx [] batchErrors markerErr).calls
        = [S3Call.deleteOne bucket pfx]
    ∧ (handleDeleteFolderRun bucket pfx [] batchErrors markerErr).err = markerErr :=
  ⟨rfl, rfl⟩

/-- The not-found error S3Error-wrapped by deleteObject when the store
reports NoSuchKey. -/
def notFoundMarkerErr : JsError :=
  mkS3Error "Failed to delete object" (some "NoSuchKey") (some 404) false

/-- Counterexample to claim C5 as stated: when the recursive enumeration
is empty and the marker delete fails with a not-found error, the folder
delete surfaces that error — the operation does not terminate
successfully, so the claimed tolerance of "not found" does not exist in
the empty branch. -/
theorem c5_counterexample :
    (handleDeleteFolderRun "b" "f/" [] noBatchErrors (some notFoundMarkerErr)).err
        = some notFoundMarkerErr
    ∧ (handleDeleteFolderRun "b" "f/" [] noBatchErrors (some notFoundMarkerErr)).calls
        = [S3Call.deleteOne "b" "f/"] :=
  ⟨rfl, rfl⟩

/-- A bucket-and-key addressed object store: the shared state the single
object operations of src/src/s3/ops.ts act on. The stored value stands
for the object's content. -/
def Store : Type := String → String → Option String

/-- Store update: the object (bucket, key) now holds value v. -/
def storePut (st : Store) (bucket key v : String) : Store :=
  fun b k => if b = bucket ∧ k = key then some v else st b k

/-- Store removal: the object (bucket, key) is gone. -/
def storeErase (st : Store) (bucket key : String) : Store :=
  fun b k => if b = bucket ∧ k = key then none else st b k

/-- Result of a single-object operation: the store afterwards, the remote
calls issued, and the surfaced error, if any. -/
structure OpResult where
  store : Store
  calls : List S3Call
  err : Option JsError

/-- Model of copyObject of src/src/s3/ops.ts lines 173-199: one remote
server-side copy call. `remoteErr` injects a failure of the remote call
(already wrapped by the catch block); otherwise the copy fails with the
wrapped not-found error when the source object does not exist and
succeeds, writing the target, when it does. The store is unchanged on
every failure. -/
def copyObjectRun (remoteErr : Option JsError) (st : Store)
    (srcBucket srcKey dstBucket dstKey : String) : OpResult :=
  match remoteErr with
  | some e => ⟨st, [S3Call.copyObj srcBucket srcKey dstBucket dstKey], some e⟩
  | none =>
    match st srcBucket srcKey with
    | none =>
      ⟨st, [S3Call.copyObj srcBucket srcKey dstBucket dstKey],
        some (mkS3Error "Failed to copy object" (some "NoSuchKey") (some 404) false)⟩
    | some v =>
      ⟨storePut st dstBucket dstKey v,
        [S3Call.copyObj srcBucket srcKey dstBucket dstKey], none⟩

/-- Model of deleteObject of src/src/s3/ops.ts lines 116-132: one remote
delete call. S3 deletes are idempotent, so absent keys do not fail;
`remoteErr` injects a failure of the remote call, which leaves the store
unchanged. -/
def deleteObjectRun (remoteErr : Option JsError) (st : Store)
    (bucket key : String) : OpResult :=
  match remoteErr with
  | some e => ⟨st, [S3Call.deleteOne bucket key], some e⟩
  | none => ⟨storeErase st bucket key, [S3Call.deleteOne bucket key], none⟩

/-- Model of moveObject of src/src/s3/ops.ts lines 201-210: copy then
delete, in that order; an error thrown by the copy propagates before the
delete statement is reached. -/
def moveObjectRun (copyErr delErr : Option JsError) (st : Store)
    (srcBucket srcKey dstBucket dstKey : String) : OpResult :=
  let c := copyObjectRun copyErr st srcBucket srcKey dstBucket dstKey
  match c.err with
  | some e => ⟨c.store, c.calls, some e⟩
  | none =>
    let d := deleteObjectRun delErr c.store srcBucket srcKey
    ⟨d.store, c.calls ++ d.calls, d.err⟩

/-- Claim C4: every moveObject issues the copy first — its call trace is
the copy alone (when the copy fails) or the copy followed by the delete,
never the reverse order; and whenever the copy fails, no delete call is
issued, the copy's error is surfaced, and the whole store — in
particular the source object — is left unchanged. -/
theorem c4_move_copies_before_delete (copyErr delErr : Option JsError)
    (st : Store) (srcBucket srcKey dstBucket dstKey : String) :
    ((moveObjectRun copyErr delErr st srcBucket srcKey dstBucket dstKey).calls
        = [S3Call.copyObj srcBucket srcKey dstBucket dstKey]
      ∨ (moveObjectRun copyErr delErr st srcBucket srcKey dstBucket dstKey).calls
        = [S3Call.copyObj srcBucket srcKey dstBucket dstKey,
           S3Call.deleteOne srcBucket srcKey])
    ∧ (match (copyObjectRun copyErr st srcBucket srcKey dstBucket dstKey).err with
       | none => True
       | some e =>
           (moveObjectRun copyErr delErr st srcBucket srcKey dstBucket dstKey).calls
             = [S3Call.copyObj srcBucket srcKey dstBucket dstKey]
           ∧ (moveObjectRun copyErr delErr st srcBucket srcKey dstBucket dstKey).store
             = st
           ∧ (moveObjectRun copyErr delErr st srcBucket srcKey dstBucket dstKey).err
             = some e) := by
  cases copyErr with
  | some e =>
    exact ⟨Or.inl rfl, rfl, rfl, rfl⟩
  | none =>
    cases hsrc : st srcBucket srcKey with
    | none =>
      constructor
      · exact Or.inl (by simp [moveObjectRun, copyObjectRun, hsrc])
      · simp [moveObjectRun, copyObjectRun, hsrc]
    | some v =>
      constructor
      · refine Or.inr ?_
        cases delErr with
        | some e => simp [moveObjectRun, copyObjectRun, deleteObjectRun, hsrc]
        | none => simp [moveObjectRun, copyObjectRun, deleteObjectRun, hsrc]
      · simp [moveObjectRun, copyObjectRun, hsrc]

/-- Model of one raw ListObjectsV2 response page as consumed by
listObjects (listing module, part_003 lines 1102-1130): Contents entries
(already projected to the S3Object fields the mapping keeps),
CommonPrefixes, IsTruncated and NextContinuationToken. -/
structure RawListPage where
  contents : List S3Object
  commonPfxes : List S3Pfx
  isTruncated : Bool
  nextContinuationToken : Option String
deriving DecidableEq, Repr

/-- Model of the response parsing of listObjects (part_003 lines
1108-1130): the object list is Contents filtered by obj.Key !== the
requested path argument (which is undefined — `none` — when no path was
requested, so nothing is excluded then), each entry kept field for
field; CommonPrefixes, IsTruncated (|| false) and NextContinuationToken
pass through. -/
def listObjectsParse (pfx : Option String) (page : RawListPage) : ListObjectsResult :=
  { objects := page.contents.filter (fun o => !(some o.key == pfx)),
    pfxes := page.commonPfxes,
    isTruncated := page.isTruncated,
    continuationToken := page.nextContinuationToken }

/-- Claim C9: for every requested path and listing page, listObjects
excludes from its returned object list exactly the entries whose key
equals the requested path (the path's own folder marker) and returns
every other entry of the page unchanged and in order (the returned list
is a sublist of the page, and membership is unchanged membership minus
the marker). -/
theorem c9_listObjects_excludes_marker (pfx : Option String) (page : RawListPage) :
    List.Sublist (listObjectsParse pfx page).objects page.contents
    ∧ (∀ o : S3Object,
        o ∈ (listObjectsParse pfx page).objects ↔ o ∈ page.contents ∧ some o.key ≠ pfx)
    ∧ (listObjectsParse pfx page).pfxes = page.commonPfxes
    ∧ (listObjectsParse pfx page).isTruncated = page.isTruncated
    ∧ (listObjectsParse pfx page).continuationToken = page.nextContinuationToken := by
  refine ⟨List.filter_sublist _, ?_, rfl, rfl, rfl⟩
  intro o
  simp [listObjectsParse, List.mem_filter]

/-- Model of the tree nodes built by the node constructors of the nodes
module (part_001): each constructor stores the bucket plus, per kind, the
full path group string, the object, or the continuation token and parent
path; display-only fields (labels, icons, tooltips) are not modelled. -/
inductive TreeNodeE where
  | bucketNode (bucket : String)
  | pfxNode (bucket : String) (pfx : String)
  | objectNode (bucket : String) (obj : S3Object)
  | loadMoreNode (bucket : String) (continuationToken : String) (parentPfx : Option String)
deriving DecidableEq, Repr

/-- Whether the character list t starts with the character list p. -/
def startsWithChars : List Char → List Char → Bool
  | _, [] => true
  | [], _ :: _ => false
  | a :: as, b :: bs => a == b && startsWithChars as bs

/-- Whether the character list p occurs contiguously inside t: the
behaviour of JS String.prototype.includes on the exploded strings. -/
def containsChars : List Char → List Char → Bool
  | [], p => p.isEmpty
  | a :: as, p => startsWithChars (a :: as) p || containsChars as p

/-- The character sequence of a string lower-cased: the effect of JS
String.prototype.toLowerCase viewed on the exploded string. -/
def toLowerChars (s : String) : List Char := s.toList.map Char.toLower

/-- Model of fuzzyMatch of the explorer (part_003 lines 68-74): an empty
filter matches everything; otherwise case-insensitive substring
containment via toLowerCase and includes. -/
def fuzzyMatch (pat text : String) : Bool :=
  if pat == "" then true
  else containsChars (toLowerChars text) (toLowerChars pat)

/-- Model of matchesFilter of the explorer (part_003 lines 76-104): with
no active filter every node matches; otherwise bucket nodes match on the
bucket name, path-group nodes on the full path, object nodes on the full
key, and load-more nodes always match. -/
def matchesFilter (filterActive : Bool) (filterText : String) (node : TreeNodeE) : Bool :=
  if !filterActive then true
  else
    match node with
    | TreeNodeE.bucketNode b => fuzzyMatch filterText b
    | TreeNodeE.pfxNode _ p => fuzzyMatch filterText p
    | TreeNodeE.objectNode _ o => fuzzyMatch filterText o.key
    | TreeNodeE.loadMoreNode _ _ _ => true

/-- JS truthiness of the optional continuation token: present and
non-empty (the empty string is falsy). -/
def tokenTruthy (t : Option String) : Bool :=
  match t with
  | some s => s != ""
  | none => false

/-- Model of createNodes of the explorer (part_003 lines 419-446),
written in the source's push-loop style: push one path-group node per
listed group, then push each object node that passes the active filter
(all of them when no filter is active), then push one load-more node iff
the result is truncated and its continuation token is truthy. -/
def createNodes (filterActive : Bool) (filterText : String) (bucket : String)
    (result : ListObjectsResult) (parentPfx : Option String) : List TreeNodeE :=
  let nodes : List TreeNodeE := []
  let nodes := result.pfxes.foldl
    (fun acc q => acc ++ [TreeNodeE.pfxNode bucket q.pfx]) nodes
  let nodes := result.objects.foldl
    (fun acc o =>
      if !filterActive || matchesFilter filterActive filterText (TreeNodeE.objectNode bucket o)
      then acc ++ [TreeNodeE.objectNode bucket o]
      else acc) nodes
  let nodes := if result.isTruncated && tokenTruthy result.continuationToken
    then nodes ++ [TreeNodeE.loadMoreNode bucket (result.continuationToken.getD "") parentPfx]
    else nodes
  nodes

/-- Model of createNodesFromCache of the explorer (part_003 lines
448-475): identical to createNodes but reading from a cache entry. -/
def createNodesFromCache (filterActive : Bool) (filterText : String) (bucket : String)
    (cached : CacheEntry) (parentPfx : Option String) : List TreeNodeE :=
  let nodes : List TreeNodeE := []
  let nodes := cached.pfxes.foldl
    (fun acc q => acc ++ [TreeNodeE.pfxNode bucket q.pfx]) nodes
  let nodes := cached.objects.foldl
    (fun acc o =>
      if !filterActive || matchesFilter filterActive filterText (TreeNodeE.objectNode bucket o)
      then acc ++ [TreeNodeE.objectNode bucket o]
      else acc) nodes
  let nodes := if cached.isTruncated && tokenTruthy cached.continuationToken
    then nodes ++ [TreeNodeE.loadMoreNode bucket (cached.continuationToken.getD "") parentPfx]
    else nodes
  nodes

/-- Helper: a push loop appends the mapped elements. -/
theorem foldl_push {α β : Type} (f : α → β) (l : List α) :
    ∀ acc0 : List β,
      l.foldl (fun acc x => acc ++ [f x]) acc0 = acc0 ++ l.map f := by
  induction l with
  | nil => intro acc0; simp
  | cons a l ih => intro acc0; simp [ih]

/-- Helper: a guarded push loop appends the mapped elements that pass
the guard. -/
theorem foldl_push_filter {α β : Type} (p : α → Bool) (f : α → β) (l : List α) :
    ∀ acc0 : List β,
      l.foldl (fun acc x => if p x then acc ++ [f x] else acc) acc0
        = acc0 ++ (l.filter p).map f := by
  induction l with
  | nil => intro acc0; simp
  | cons a l ih =>
    intro acc0
    cases hpa : p a with
    | true => simp [hpa, ih]
    | false => simp [hpa, ih]

/-- Claim C6 as amended: every materialized scope, whether built from a
fresh listing result or from a cache entry, is exactly: all path-group
nodes in listing order, then the object nodes passing the active filter
(all object nodes when no filter is active), then exactly one synthetic
load-more node carrying the continuation token iff the scope is
truncated and a non-empty continuation token is present; no other node
kinds or positions occur. -/
theorem c6_scope_node_layout (fA : Bool) (fT bucket : String)
    (result : ListObjectsResult) (cached : CacheEntry) (pp : Option String) :
    createNodes fA fT bucket result pp
      = result.pfxes.map (fun q => TreeNodeE.pfxNode bucket q.pfx)
        ++ (result.objects.filter
              (fun o => !fA || matchesFilter fA fT (TreeNodeE.objectNode bucket o))).map
            (fun o => TreeNodeE.objectNode bucket o)
        ++ (if result.isTruncated && tokenTruthy result.continuationToken
            then [TreeNodeE.loadMoreNode bucket (result.continuationToken.getD "") pp]
            else [])
    ∧ createNodesFromCache fA fT bucket cached pp
      = cached.pfxes.map (fun q => TreeNodeE.pfxNode bucket q.pfx)
        ++ (cached.objects.filter
              (fun o => !fA || matchesFilter fA fT (TreeNodeE.objectNode bucket o))).map
            (fun o => TreeNodeE.objectNode bucket o)
        ++ (if cached.isTruncated && tokenTruthy cached.continuationToken
            then [TreeNodeE.loadMoreNode bucket (cached.continuationToken.getD "") pp]
            else []) := by
  constructor
  · simp only [createNodes, foldl_push, foldl_push_filter, List.nil_append]
    cases hcond : result.isTruncated && tokenTruthy result.continuationToken with
    | true => simp [List.append_assoc]
    | false => simp
  · simp only [createNodesFromCache, foldl_push, foldl_push_filter, List.nil_append]
    cases hcond : cached.isTruncated && tokenTruthy cached.continuationToken with
    | true => simp [List.append_assoc]
    | false => simp

/-- A one-page listing result holding a single object that does not
match the filter text png. -/
def c6res : ListObjectsResult :=
  { objects := [⟨"readme.md", none, none, none⟩], pfxes := [],
    isTruncated := false, continuationToken := none }

/-- Counterexample to claim C6 as stated: with the filter png active, the
materialized scope of a result whose page contains the object
readme.md is empty — the object node is dropped by the filter — so the
returned node list is not all path-group nodes followed by all object
nodes. -/
theorem c6_counterexample :
    createNodes true "png" "b" c6res none = []
    ∧ c6res.objects = [⟨"readme.md", none, none, none⟩] := by
  refine ⟨by decide, rfl⟩

/-- Case-insensitive substring containment of pat in text, stated as the
claim reads: some decomposition of the lower-cased text surrounds the
lower-cased pat. -/
def CharsContain (text pat : String) : Prop :=
  ∃ l r, l ++ toLowerChars pat ++ r = toLowerChars text

/-- Helper: startsWithChars decides list-level follows-from. -/
theorem startsWithChars_iff (p : List Char) :
    ∀ t : List Char, startsWithChars t p = true ↔ ∃ r, p ++ r = t := by
  induction p with
  | nil =>
    intro t
    simp [startsWithChars]
  | cons b bs ih =>
    intro t
    cases t with
    | nil =>
      simp [startsWithChars]
    | cons a as =>
      constructor
      · intro h
        have h' : (a == b && startsWithChars as bs) = true := h
        simp only [Bool.and_eq_true] at h'
        rcases h' with ⟨hab, hrest⟩
        rcases (ih as).1 hrest with ⟨r, hr⟩
        refine ⟨r, ?_⟩
        have hba : a = b := beq_iff_eq.1 hab
        simp [List.cons_append, hba, hr]
      · rintro ⟨r, hr⟩
        rw [List.cons_append] at hr
        have hba : b = a := (List.cons.inj hr).1
        have htail : bs ++ r = as := (List.cons.inj hr).2
        show (a == b && startsWithChars as bs) = true
        rw [Bool.and_eq_true]
        exact ⟨beq_iff_eq.2 hba.symm, (ih as).2 ⟨r, htail⟩⟩

/-- Helper: containsChars decides list-level containment. -/
theorem containsChars_iff (p : List Char) :
    ∀ t : List Char, containsChars t p = true ↔ ∃ l r, l ++ p ++ r = t := by
  intro t
  induction t with
  | nil =>
    constructor
    · intro h
      have hp : p = [] := by
        simpa [containsChars, List.isEmpty_iff] using h
      exact ⟨[], [], by simp [hp]⟩
    · rintro ⟨l, r, h⟩
      have h1 := List.append_eq_nil.1 h
      have h2 := List.append_eq_nil.1 h1.1
      simp [containsChars, List.isEmpty_iff, h2.2]
  | cons a as ih =>
    constructor
    · intro h
      have h' : startsWithChars (a :: as) p = true ∨ containsChars as p = true := by
        have hh : (startsWithChars (a :: as) p || containsChars as p) = true := h
        simp only [Bool.or_eq_true] at hh
        exact hh
      rcases h' with h' | h'
      · rcases (startsWithChars_iff p (a :: as)).1 h' with ⟨r, hr⟩
        exact ⟨[], r, by simpa using hr⟩
      · rcases ih.1 h' with ⟨l, r, hlr⟩
        exact ⟨a :: l, r, by simp [List.cons_append, hlr]⟩
    · rintro ⟨l, r, h⟩
      show (startsWithChars (a :: as) p || containsChars as p) = true
      rw [Bool.or_eq_true]
      cases l with
      | nil =>
        refine Or.inl ((startsWithChars_iff p (a :: as)).2 ⟨r, ?_⟩)
        simpa using h
      | cons x xs =>
        rw [List.cons_append, List.cons_append] at h
        have htail : xs ++ p ++ r = as := (List.cons.inj h).2
        exact Or.inr (ih.2 ⟨xs, r, htail⟩)

/-- Helper: fuzzyMatch is exactly case-insensitive substring
containment (an empty filter is contained in everything). -/
theorem fuzzyMatch_iff (pat text : String) :
    fuzzyMatch pat text = true ↔ CharsContain text pat := by
  by_cases h : pat = ""
  · subst h
    constructor
    · intro _
      refine ⟨toLowerChars text, [], ?_⟩
      have hemp : toLowerChars "" = ([] : List Char) := rfl
      simp [hemp]
    · intro _
      rfl
  · have hb : (pat == "") = false := by
      simp [h]
    simp only [fuzzyMatch, CharsContain, hb, Bool.false_eq_true, if_false]
    exact containsChars_iff _ _

/-- Claim C8: with a non-empty filter text (and hence an active filter),
a node matches iff the lower-cased filter text occurs as a substring of
the lower-cased bucket name, full path group, or full object key,
according to the node kind; load-more nodes always match. In
particular png matches the object key img/photo.png and the path group
images/png-assets/ but not readme.md. -/
theorem c8_filter_match_semantics (fT : String) (hne : fT ≠ "")
    (b p lb tok : String) (o : S3Object) (pp : Option String) :
    (matchesFilter true fT (TreeNodeE.bucketNode b) = true ↔ CharsContain b fT)
    ∧ (matchesFilter true fT (TreeNodeE.pfxNode b p) = true ↔ CharsContain p fT)
    ∧ (matchesFilter true fT (TreeNodeE.objectNode b o) = true ↔ CharsContain o.key fT)
    ∧ matchesFilter true fT (TreeNodeE.loadMoreNode lb tok pp) = true
    ∧ matchesFilter true "png" (TreeNodeE.objectNode "x" ⟨"img/photo.png", none, none, none⟩)
        = true
    ∧ matchesFilter true "png" (TreeNodeE.pfxNode "x" "images/png-assets/") = true
    ∧ matchesFilter true "png" (TreeNodeE.objectNode "x" ⟨"readme.md", none, none, none⟩)
        = false := by
  refine ⟨?_, ?_, ?_, rfl, by decide, by decide, by decide⟩
  · simpa [matchesFilter] using fuzzyMatch_iff fT b
  · simpa [matchesFilter] using fuzzyMatch_iff fT p
  · simpa [matchesFilter] using fuzzyMatch_iff fT o.key

/-- Witness for claim C8 at the filter text png and the spec's example
nodes. -/
theorem c8_filter_match_semantics_witness :
    ("png" : String) ≠ ""
    ∧ ((matchesFilter true "png" (TreeNodeE.bucketNode "mybucket") = true
          ↔ CharsContain "mybucket" "png")
      ∧ (matchesFilter true "png" (TreeNodeE.pfxNode "mybucket" "images/png-assets/") = true
          ↔ CharsContain "images/png-assets/" "png")
      ∧ (matchesFilter true "png"
            (TreeNodeE.objectNode "mybucket" ⟨"img/photo.png", none, none, none⟩) = true
          ↔ CharsContain ("img/photo.png" : String) "png")
      ∧ matchesFilter true "png" (TreeNodeE.loadMoreNode "mybucket" "tok" none) = true
      ∧ matchesFilter true "png"
          (TreeNodeE.objectNode "x" ⟨"img/photo.png", none, none, none⟩) = true
      ∧ matchesFilter true "png" (TreeNodeE.pfxNode "x" "images/png-assets/") = true
      ∧ matchesFilter true "png"
          (TreeNodeE.objectNode "x" ⟨"readme.md", none, none, none⟩) = false) :=
  ⟨by decide,
    c8_filter_match_semantics "png" (by decide) "mybucket" "images/png-assets/" "mybucket"
      "tok" ⟨"img/photo.png", none, none, none⟩ none⟩

/-- Whether a string ends with a slash: the JS endsWith check used on
keys and path groups (keys here are treated as character sequences). -/
def strEndsWithSlash (p : String) : Bool :=
  match p.toList.getLast? with
  | some c => c == '/'
  | none => false

/-- JS String.prototype.split on the slash separator, on exploded
strings: an empty input yields one empty segment, a trailing separator
yields a trailing empty segment. -/
def splitOnSlash : List Char → List (List Char)
  | [] => [[]]
  | c :: rest =>
    if c == '/' then [] :: splitOnSlash rest
    else
      match splitOnSlash rest with
      | [] => [[c]]
      | seg :: segs => (c :: seg) :: segs

/-- JS Array.prototype.join on the slash separator. -/
def joinWithSlash : List (List Char) → List Char
  | [] => []
  | [x] => x
  | x :: y :: rest => x ++ '/' :: joinWithSlash (y :: rest)

/-- Remove the leading and the trailing slash run of a segment: the
per-segment replace of joinPath (paths module, part_004). -/
def stripSlashes (cs : List Char) : List Char :=
  ((cs.dropWhile (fun c => c == '/')).reverse.dropWhile (fun c => c == '/')).reverse

/-- Collapse every slash run to a single slash: the final replace of
joinPath. -/
def collapseSlashes : List Char → List Char
  | [] => []
  | [c] => [c]
  | a :: b :: rest =>
    if a == '/' && b == '/' then collapseSlashes (b :: rest)
    else a :: collapseSlashes (b :: rest)

/-- Model of joinPath of the paths module (part_004): drop empty
segments, strip each remaining segment's outer slashes, join with one
slash, and collapse duplicate slashes. -/
def joinPathChars (segments : List (List Char)) : List Char :=
  collapseSlashes (joinWithSlash ((segments.filter (fun s => !s.isEmpty)).map stripSlashes))

/-- The source folder name computation shared by handleMoveFolder (lines
1187-1189) and handleRenameFolder (lines 1328-1330) of
src/src/extension.ts: strip one trailing slash if present, split on
slashes, take the last piece. -/
def lastSegmentName (p : String) : String :=
  let s := if strEndsWithSlash p then p.toList.dropLast else p.toList
  String.mk ((splitOnSlash s).getLastD [])

/-- The destination path computation of handleMoveFolder (lines
1191-1193): a truthy target path gets the source folder name joined
onto it; an empty target means the bucket root, keeping the folder
name. -/
def moveTargetPfx (targetPfx sourceFolderName : String) : String :=
  if targetPfx != "" then
    String.mk (joinPathChars [targetPfx.toList, sourceFolderName.toList]) ++ "/"
  else
    sourceFolderName ++ "/"

/-- The renamed path computation of handleRenameFolder (lines
1355-1357): split the old path on slashes, drop empty pieces, replace
the last piece with the new name, join back and re-append the trailing
slash. -/
def setLast : List (List Char) → List Char → List (List Char)
  | [], _ => []
  | [_], n => [n]
  | x :: y :: rest, n => x :: setLast (y :: rest) n

/-- The new path a folder rename targets (see setLast). -/
def renamedPfx (oldPfx newName : String) : String :=
  let parts := (splitOnSlash oldPfx.toList).filter (fun q => !q.isEmpty)
  String.mk (joinWithSlash (setLast parts newName.toList)) ++ "/"

/-- The folder-marker key written by createFolder of src/src/s3/ops.ts
lines 469-481: the path, slash-terminated. -/
def folderKeyOf (p : String) : String :=
  if strEndsWithSlash p then p else p ++ "/"

/-- The folder move algorithm shared by handleMoveFolder and
handleRenameFolder of src/src/extension.ts, with the destination path
abstracted: on an empty enumeration, create the destination marker and
delete the source marker; otherwise move (copy then delete) each object
to destination path ++ key suffix past the source path, then delete
every remaining slash-terminated key of the re-enumeration and the
source marker itself. `objects` is the first enumeration, `remaining`
the cleanup re-enumeration. -/
def moveFolderAlgo (srcBucket srcPfx dstBucket dstPfx : String)
    (objects remaining : List S3Object) : List S3Call :=
  if objects.length = 0 then
    [S3Call.putFolder dstBucket (folderKeyOf dstPfx),
     S3Call.deleteOne srcBucket srcPfx]
  else
    (objects.map (fun o =>
        [S3Call.copyObj srcBucket o.key dstBucket
            (dstPfx ++ String.mk (o.key.toList.drop srcPfx.length)),
         S3Call.deleteOne srcBucket o.key])).flatten
    ++ ((remaining.filter (fun o => strEndsWithSlash o.key)).map
          (fun o => S3Call.deleteOne srcBucket o.key))
    ++ [S3Call.deleteOne srcBucket srcPfx]

/-- The remote-call trace of handleMoveFolder of src/src/extension.ts
lines 1186-1264 on a run whose remote calls succeed: compute the
destination as the target path joined with the kept source folder name,
then run the move algorithm body (the body is spelled out to mirror the
source). -/
def handleMoveFolderTrace (bucket pfx targetBucket targetPfx : String)
    (objects remaining : List S3Object) : List S3Call :=
  let sourceFolderName := lastSegmentName pfx
  let targetFolderPfx := moveTargetPfx targetPfx sourceFolderName
  if objects.length = 0 then
    [S3Call.putFolder targetBucket (folderKeyOf targetFolderPfx),
     S3Call.deleteOne bucket pfx]
  else
    (objects.map (fun o =>
        [S3Call.copyObj bucket o.key targetBucket
            (targetFolderPfx ++ String.mk (o.key.toList.drop pfx.length)),
         S3Call.deleteOne bucket o.key])).flatten
    ++ ((remaining.filter (fun o => strEndsWithSlash o.key)).map
          (fun o => S3Call.deleteOne bucket o.key))
    ++ [S3Call.deleteOne bucket pfx]

/-- The remote-call trace of handleRenameFolder of src/src/extension.ts
lines 1326-1429 on a run whose remote calls succeed, after the new name
passed validation: compute the renamed path (only the final segment
changes), then run the same body within one bucket. -/
def handleRenameFolderTrace (bucket oldPfx newName : String)
    (objects remaining : List S3Object) : List S3Call :=
  let newPfx := renamedPfx oldPfx newName
  if objects.length = 0 then
    [S3Call.putFolder bucket (folderKeyOf newPfx),
     S3Call.deleteOne bucket oldPfx]
  else
    (objects.map (fun o =>
        [S3Call.copyObj bucket o.key bucket
            (newPfx ++ String.mk (o.key.toList.drop oldPfx.length)),
         S3Call.deleteOne bucket o.key])).flatten
    ++ ((remaining.filter (fun o => strEndsWithSlash o.key)).map
          (fun o => S3Call.deleteOne bucket o.key))
    ++ [S3Call.deleteOne bucket oldPfx]

/-- Claim C7 as amended: a folder rename performs exactly the shared
folder-move algorithm — the same per-object copy-then-delete steps, the
same destination keys (destination path ++ suffix), the same
source-marker cleanup — with destination path renamedPfx(old, newName)
in the same bucket; handleMoveFolder runs the same algorithm but at the
destination path obtained by appending the kept source folder name to
its target argument, so renaming old/ to new/ coincides with the move
algorithm at destination new/, not with
handleMoveFolder(bucket, old/, bucket, new/), which targets new/old/. -/
theorem c7_rename_is_move_algo (bucket oldPfx newName tb tp : String)
    (objects remaining : List S3Object) :
    handleRenameFolderTrace bucket oldPfx newName objects remaining
      = moveFolderAlgo bucket oldPfx bucket (renamedPfx oldPfx newName)
          objects remaining
    ∧ handleMoveFolderTrace bucket oldPfx tb tp objects remaining
      = moveFolderAlgo bucket oldPfx tb (moveTargetPfx tp (lastSegmentName oldPfx))
          objects remaining
    ∧ renamedPfx "old/" "new" = "new/"
    ∧ moveTargetPfx "new/" (lastSegmentName "old/") = "new/old/" := by
  refine ⟨rfl, rfl, by decide, by decide⟩

/-- Counterexample to claim C7 as stated: for source folder old/ holding
the one object old/x.txt, renaming it to new/ copies to new/x.txt, while
handleMoveFolder(bucket, old/, bucket, new/) copies to new/old/x.txt —
the two traces differ, so rename is not the same operation as the
folder move called with target new/. -/
theorem c7_counterexample :
    handleRenameFolderTrace "b" "old/" "new" [⟨"old/x.txt", none, none, none⟩] []
      ≠ handleMoveFolderTrace "b" "old/" "b" "new/"
          [⟨"old/x.txt", none, none, none⟩] [] := by
  decide

end S3X
